import Mathlib

/-!
Reconnect backend: due-contact prioritization engine.

Shallow embedding of the suggestion engine of `main.py` (FastAPI backend of
the Reconnect contact-reminder app) together with the storage schema
constraints of `schemas.py`, and proofs of the specified properties.

Modelling conventions:

* Instants (Python `datetime` values) are integers counting microseconds,
  the resolution of `datetime`, measured from `datetime.min`
  (0001-01-01T00:00). Python datetimes range over years 1..9999, so a valid
  instant lies in `[0, maxInstant]`.
* `timedelta.days` is floor division of the microsecond difference by the
  number of microseconds in a day (Python `//` on ints is floor division,
  which `Int.fdiv` mirrors exactly, including on negative differences).
* `datetime.fromisoformat` is an external library routine; it is threaded
  through the development as an abstract `parse : String → Option Int`,
  with `none` standing for the `ValueError` caught by the `try/except`
  blocks.
* `now_utc()` is modelled as a fixed instant `now` for the read-only
  suggestion path (every call inside one request is a fresh clock read, but
  the queries under study only compare day-granularity values). For
  `add_interaction`, where the difference between successive clock reads
  is exactly what is at stake, the clock is modelled explicitly as the
  sequence of instants returned by successive `now_utc()` calls.
* The Python float sentinel `1e9` is the exactly-representable integer
  10^9; every other score is a small integer, so comparisons between the
  sentinel and computed scores are exact and are modelled on `Int`.
-/

namespace Reconnect

/-- Microseconds per day: the resolution of Python `datetime` arithmetic. -/
def usPerDay : Int := 86400000000

/-- The largest valid instant: `datetime.max - datetime.min` equals
`timedelta(days=3652058, seconds=86399, microseconds=999999)`, i.e. Python
datetimes span 3652059 days (years 1..9999) minus one microsecond. -/
def maxInstant : Int := 3652059 * usPerDay - 1

/-- `timedelta.days` for a difference of two instants in microseconds:
floor division by the length of a day (Python `//` semantics). -/
def tdDays (delta : Int) : Int := Int.fdiv delta usPerDay

/-- The raw value found in the `lastContactedAt` field of a stored
contact: absent (`None`), an actual datetime, or a raw string
(loosely-typed storage may hold ISO strings). -/
inductive LastVal where
  | absent : LastVal
  | dt : Int → LastVal
  | str : String → LastVal
deriving DecidableEq, Repr

/-- A stored contact document, restricted to the fields the engine reads:
`frequencyDays` (may be missing from the raw document, hence `Option`) and
`lastContactedAt`; `fullName` identifies contacts in examples. -/
structure Contact where
  fullName : String
  frequencyDays : Option Int
  lastContactedAt : LastVal
deriving DecidableEq, Repr

/-- The normalization applied to `lastContactedAt` at every use site in
`main.py`: a string is run through `datetime.fromisoformat` inside
`try/except`, with `None` on failure; `parse` stands for `fromisoformat`. -/
def normLast (parse : String → Option Int) : LastVal → Option Int
  | .absent => none
  | .dt t => some t
  | .str s => parse s

/-- `is_due` (main.py lines 206-217): a contact is due when it was never
contacted (or its timestamp does not parse), else when the whole-day floor
of the elapsed time reaches `frequencyDays` (defaulted to 30 when the
field is missing). -/
def is_due (parse : String → Option Int) (now : Int) (c : Contact) : Bool :=
  let freq := c.frequencyDays.getD 30
  match normLast parse c.lastContactedAt with
  | none => true
  | some last => decide (freq ≤ tdDays (now - last))

/-- `overdue_score` (main.py lines 240-250): `1e9` for a never-contacted
(or unparseable) contact, else elapsed whole days minus `frequencyDays`
(defaulted to 30). -/
def overdue_score (parse : String → Option Int) (now : Int) (c : Contact) : Int :=
  match normLast parse c.lastContactedAt with
  | none => 1000000000
  | some last => tdDays (now - last) - c.frequencyDays.getD 30

/-- `days_since` (main.py lines 200-203): `None` for `None`, else the
whole-day floor of the elapsed time. -/
def days_since (now : Int) : Option Int → Option Int
  | none => none
  | some t => some (tdDays (now - t))

/-- One insertion step of a stable descending sort keyed by `score`: the
new element passes every strictly greater element and stops in front of
the first element whose score is not strictly greater, hence after every
earlier-inserted element of equal score. -/
def insDesc (score : Contact → Int) (x : Contact) : List Contact → List Contact
  | [] => [x]
  | y :: ys => if score x < score y then y :: insDesc score x ys else x :: y :: ys

/-- Stable descending sort by `score`. `list.sort(key=score, reverse=True)`
in Python is specified as exactly the stable descending reordering, which
is unique, so any stable descending sort is an exact model of it. -/
def sortDesc (score : Contact → Int) : List Contact → List Contact
  | [] => []
  | x :: xs => insDesc score x (sortDesc score xs)

/-- Python slicing `l[:t]` for an `int` bound `t`: a nonnegative bound
takes a prefix (clamped at the length), a negative bound counts from the
end (clamped at zero). -/
def pySlice (t : Int) (l : List Contact) : List Contact :=
  if 0 ≤ t then l.take t.toNat else l.take ((l.length : Int) + t).toNat

/-- `GET /api/suggestions` (main.py lines 232-270). `mode` and `count` are
optional query parameters; FastAPI substitutes the declared defaults
`"daily"` and `3` when a parameter is absent — the stored Settings document
is never consulted by this endpoint. Contacts arrive in storage order.
The returned records are the selected contacts annotated with the
`daysSince` helper field (modelled as the second component). -/
def get_suggestions (parse : String → Option Int) (now : Int)
    (contacts : List Contact) (mode : Option String) (count : Option Int) :
    List (Contact × Option Int) :=
  let m := mode.getD "daily"
  let n := count.getD 3
  let items := sortDesc (overdue_score parse now) contacts
  let due := items.filter (is_due parse now)
  let target := if m = "daily" then n else n
  let result := pySlice target (if due.isEmpty then items else due)
  result.map (fun c => (c, days_since now (normLast parse c.lastContactedAt)))

/-- The stored Settings document, restricted to the fields the suggestion
spec mentions. -/
structure Settings where
  mode : String
  countDaily : Int
  countWeekly : Int
deriving DecidableEq, Repr

/-- The default Settings synthesized by `get_settings` (main.py lines
275-288) when no document exists. -/
def defaultSettings : Settings :=
  { mode := "daily", countDaily := 3, countWeekly := 10 }

/-- Second definition for the C1 comparison, following the wording of the
spec (§4.3 step 1): effective mode is the explicit override else
`settings.mode`; effective count is the explicit override else
`settings.countDaily` if the effective mode is daily else
`settings.countWeekly`. -/
def resolveSpec (s : Settings) (mode : Option String) (count : Option Int) :
    String × Int :=
  let m := mode.getD s.mode
  let n := count.getD (if m = "daily" then s.countDaily else s.countWeekly)
  (m, n)

/-- A stored interaction document, restricted to the fields
`add_interaction` writes. -/
structure Interaction where
  contactId : String
  type : String
  createdAt : Int
deriving DecidableEq, Repr

/-- `POST /api/contacts/{id}/interactions` for an existing contact
(main.py lines 149-175): the interaction payload takes `createdAt` from
one `now_utc()` call (line 162) and the contact update takes
`lastContactedAt` from a second, separate `now_utc()` call (line 168).
`clock n` is the instant returned by the n-th `now_utc()` call inside the
handler. Returns the stored interaction and the updated contact. -/
def add_interaction (clock : Nat → Int) (contactId : String) (c : Contact)
    (ty : String) : Interaction × Contact :=
  let interaction : Interaction :=
    { contactId := contactId, type := ty, createdAt := clock 0 }
  let c' : Contact := { c with lastContactedAt := .dt (clock 1) }
  (interaction, c')

/-!
Helper lemmas about the time helpers and the stable descending sort.
-/

/-- Day-floor is monotone in the elapsed duration. -/
theorem tdDays_mono {a b : Int} (h : a ≤ b) : tdDays a ≤ tdDays b := by
  unfold tdDays
  rw [Int.fdiv_eq_ediv _ (by norm_num [usPerDay]),
    Int.fdiv_eq_ediv _ (by norm_num [usPerDay])]
  exact Int.ediv_le_ediv (by norm_num [usPerDay]) h

/-- A whole number of days floors to itself. -/
theorem tdDays_mul (k : Int) : tdDays (k * usPerDay) = k := by
  unfold tdDays
  rw [Int.fdiv_eq_ediv _ (by norm_num [usPerDay])]
  exact Int.mul_ediv_cancel k (by norm_num [usPerDay])

theorem mem_insDesc {score : Contact → Int} {x z : Contact}
    {l : List Contact} : z ∈ insDesc score x l ↔ z = x ∨ z ∈ l := by
  induction l with
  | nil => simp [insDesc]
  | cons y ys ih =>
    simp only [insDesc]
    by_cases h : score x < score y
    · simp only [if_pos h, List.mem_cons, ih]
      tauto
    · simp only [if_neg h, List.mem_cons]

theorem pairwise_insDesc {score : Contact → Int} {x : Contact}
    {l : List Contact} (hl : l.Pairwise (fun a b => score b ≤ score a)) :
    (insDesc score x l).Pairwise (fun a b => score b ≤ score a) := by
  induction l with
  | nil => simp [insDesc]
  | cons y ys ih =>
    rcases List.pairwise_cons.1 hl with ⟨hy, hys⟩
    simp only [insDesc]
    by_cases h : score x < score y
    · rw [if_pos h]
      refine List.pairwise_cons.2 ⟨?_, ih hys⟩
      intro z hz
      rcases mem_insDesc.1 hz with rfl | hz
      · exact le_of_lt h
      · exact hy z hz
    · rw [if_neg h]
      refine List.pairwise_cons.2 ⟨?_, hl⟩
      intro z hz
      rcases List.mem_cons.1 hz with rfl | hz
      · exact not_lt.1 h
      · exact le_trans (hy z hz) (not_lt.1 h)

/-- The output of the sort is descending in the score (adjacent or not). -/
theorem pairwise_sortDesc (score : Contact → Int) (l : List Contact) :
    (sortDesc score l).Pairwise (fun a b => score b ≤ score a) := by
  induction l with
  | nil => exact List.Pairwise.nil
  | cons x xs ih => exact pairwise_insDesc ih

theorem insDesc_perm (score : Contact → Int) (x : Contact)
    (l : List Contact) : (insDesc score x l).Perm (x :: l) := by
  induction l with
  | nil => exact List.Perm.refl _
  | cons y ys ih =>
    simp only [insDesc]
    by_cases h : score x < score y
    · rw [if_pos h]
      exact (ih.cons y).trans (List.Perm.swap x y ys)
    · rw [if_neg h]

/-- The sort permutes its input. -/
theorem sortDesc_perm (score : Contact → Int) (l : List Contact) :
    (sortDesc score l).Perm l := by
  induction l with
  | nil => exact List.Perm.refl _
  | cons x xs ih =>
    exact (insDesc_perm score x (sortDesc score xs)).trans (ih.cons x)

/-- Stability of one insertion, phrased on the fiber of one score value:
inserting `x` adds it in front of the equal-scored elements already
present (every element it passes has a strictly greater score). -/
theorem filter_insDesc (score : Contact → Int) (s : Int) (x : Contact)
    (l : List Contact) :
    (insDesc score x l).filter (fun c => decide (score c = s))
      = (if score x = s then [x] else [])
        ++ l.filter (fun c => decide (score c = s)) := by
  induction l with
  | nil =>
    by_cases hx : score x = s <;> simp [insDesc, hx]
  | cons y ys ih =>
    simp only [insDesc]
    by_cases h : score x < score y
    · rw [if_pos h]
      by_cases hx : score x = s
      · have hy : ¬ score y = s := by
          intro hy
          rw [hx, hy] at h
          exact lt_irrefl s h
        simp [List.filter_cons, hx, hy, ih]
      · simp [List.filter_cons, hx, ih]
    · rw [if_neg h]
      by_cases hx : score x = s <;> simp [List.filter_cons, hx]

/-- Stability of the sort: on each fiber of the score, the sorted list
agrees with the input list, element for element and in order. -/
theorem filter_sortDesc (score : Contact → Int) (s : Int) (l : List Contact) :
    (sortDesc score l).filter (fun c => decide (score c = s))
      = l.filter (fun c => decide (score c = s)) := by
  induction l with
  | nil => rfl
  | cons x xs ih =>
    rw [sortDesc, filter_insDesc, ih, List.filter_cons]
    by_cases hx : score x = s <;> simp [hx]

/-- A Python slice `l[:t]` is an in-order selection from `l`. -/
theorem pySlice_sublist (t : Int) (l : List Contact) :
    (pySlice t l).Sublist l := by
  unfold pySlice
  by_cases h : 0 ≤ t
  · rw [if_pos h]
    exact List.take_sublist _ _
  · rw [if_neg h]
    exact List.take_sublist _ _

/-- Length of a Python slice with a nonnegative bound. -/
theorem length_pySlice_of_nonneg {t : Int} (h : 0 ≤ t) (l : List Contact) :
    (pySlice t l).length = min t.toNat l.length := by
  simp [pySlice, if_pos h, List.length_take]

/-- Unfolding of the suggestions endpoint: the hardcoded parameter
defaults are substituted, the sorted pool (due contacts if any, else all
contacts) is truncated, and each kept contact is annotated. -/
theorem get_suggestions_eq (parse : String → Option Int) (now : Int)
    (contacts : List Contact) (mode : Option String) (count : Option Int) :
    get_suggestions parse now contacts mode count =
      (pySlice (count.getD 3)
        (if ((sortDesc (overdue_score parse now) contacts).filter
              (is_due parse now)).isEmpty
         then sortDesc (overdue_score parse now) contacts
         else (sortDesc (overdue_score parse now) contacts).filter
              (is_due parse now))).map
        (fun c => (c, days_since now (normLast parse c.lastContactedAt))) := by
  simp [get_suggestions]

/-- The contacts carried by the suggestions output, without annotations. -/
theorem get_suggestions_fst (parse : String → Option Int) (now : Int)
    (contacts : List Contact) (mode : Option String) (count : Option Int) :
    (get_suggestions parse now contacts mode count).map Prod.fst
      = pySlice (count.getD 3)
          (if ((sortDesc (overdue_score parse now) contacts).filter
                (is_due parse now)).isEmpty
           then sortDesc (overdue_score parse now) contacts
           else (sortDesc (overdue_score parse now) contacts).filter
                (is_due parse now)) := by
  rw [get_suggestions_eq, List.map_map]
  exact List.map_id _

/-!
Claim theorems.
-/

/-- Claim C3: a never-contacted contact (no parseable `lastContactedAt`)
scores strictly above any contacted contact, for every representable
datetime value of the other `lastContactedAt` and every `frequencyDays`
honouring the `frequencyDays >= 1` schema invariant, so it ranks first.
The sentinel 10^9 exceeds every computable score because Python datetimes
span at most 3652059 days. -/
theorem never_contacted_outranks (parse : String → Option Int)
    (now t : Int) (A B : Contact)
    (hA : normLast parse A.lastContactedAt = none)
    (hB : normLast parse B.lastContactedAt = some t)
    (hnow₀ : 0 ≤ now) (hnow₁ : now ≤ maxInstant)
    (ht₀ : 0 ≤ t) (ht₁ : t ≤ maxInstant)
    (hfreq : 1 ≤ B.frequencyDays.getD 30) :
    overdue_score parse now B < overdue_score parse now A := by
  have hAs : overdue_score parse now A = 1000000000 := by
    unfold overdue_score
    rw [hA]
  have hBs : overdue_score parse now B
      = tdDays (now - t) - B.frequencyDays.getD 30 := by
    unfold overdue_score
    rw [hB]
  have hd : tdDays (now - t) ≤ 3652058 := by
    have h1 : now - t ≤ maxInstant := by omega
    calc tdDays (now - t) ≤ tdDays maxInstant := tdDays_mono h1
      _ = 3652058 := by decide
  rw [hAs, hBs]
  omega

/-- Witness for C3 at a concrete pair of contacts. -/
theorem never_contacted_outranks_witness :
    overdue_score (fun _ => none) 0
        { fullName := "B", frequencyDays := some 7, lastContactedAt := .dt 0 }
      < overdue_score (fun _ => none) 0
        { fullName := "A", frequencyDays := none, lastContactedAt := .absent } :=
  never_contacted_outranks (fun _ => none) 0 0
    { fullName := "A", frequencyDays := none, lastContactedAt := .absent }
    { fullName := "B", frequencyDays := some 7, lastContactedAt := .dt 0 }
    rfl rfl (by decide) (by decide) (by decide) (by decide) (by decide)

/-- Claim C4: with a parseable `lastContactedAt` and `frequencyDays >= 1`,
`is_due` holds exactly when the whole-day floor of the elapsed time
reaches `frequencyDays`; in particular it holds when the last contact was
exactly `frequencyDays` days ago and fails when it was exactly one day
less. -/
theorem is_due_floor_days (parse : String → Option Int) (now freq t : Int)
    (c : Contact)
    (hlast : normLast parse c.lastContactedAt = some t)
    (hfreq : c.frequencyDays.getD 30 = freq) (h1 : 1 ≤ freq) :
    (is_due parse now c = true ↔ freq ≤ tdDays (now - t))
      ∧ (t = now - freq * usPerDay → is_due parse now c = true)
      ∧ (t = now - (freq - 1) * usPerDay → is_due parse now c = false) := by
  have hiff : is_due parse now c = true ↔ freq ≤ tdDays (now - t) := by
    simp [is_due, hlast, hfreq]
  refine ⟨hiff, ?_, ?_⟩
  · intro ht
    rw [hiff, ht]
    have h2 : now - (now - freq * usPerDay) = freq * usPerDay := by ring
    rw [h2, tdDays_mul]
  · intro ht
    have hval : tdDays (now - t) = freq - 1 := by
      rw [ht]
      have h2 : now - (now - (freq - 1) * usPerDay) = (freq - 1) * usPerDay := by
        ring
      rw [h2, tdDays_mul]
    rcases Bool.eq_false_or_eq_true (is_due parse now c) with hb | hb
    · have hge := hiff.1 hb
      rw [hval] at hge
      exact absurd hge (by omega)
    · exact hb

/-- A contact exactly on the due boundary relative to the instant 0: last
contacted exactly seven days earlier, frequency 7. -/
def cBoundary : Contact :=
  { fullName := "boundary", frequencyDays := some 7,
    lastContactedAt := .dt ((-7) * usPerDay) }

/-- Witness for C4 at the boundary contact. -/
theorem is_due_floor_days_witness :
    (is_due (fun _ => none) 0 cBoundary = true
        ↔ (7 : Int) ≤ tdDays (0 - (-7) * usPerDay))
      ∧ ((-7) * usPerDay = 0 - 7 * usPerDay
          → is_due (fun _ => none) 0 cBoundary = true)
      ∧ ((-7) * usPerDay = 0 - (7 - 1) * usPerDay
          → is_due (fun _ => none) 0 cBoundary = false) :=
  is_due_floor_days (fun _ => none) 0 7 ((-7) * usPerDay) cBoundary
    rfl rfl (by decide)

/-- Claim C8: a contact whose `lastContactedAt` is a string the datetime
library cannot parse is treated exactly as never contacted: `is_due`
holds, the score is the sentinel 10^9, and both functions return normally
(they are total; the `except` clause swallows the failure). -/
theorem malformed_last_is_never_contacted (parse : String → Option Int)
    (now : Int) (s : String) (c : Contact)
    (hc : c.lastContactedAt = .str s) (hbad : parse s = none) :
    is_due parse now c = true ∧ overdue_score parse now c = 1000000000 := by
  constructor
  · simp [is_due, normLast, hc, hbad]
  · simp [overdue_score, normLast, hc, hbad]

/-- Witness for C8 on a concrete garbage timestamp. -/
theorem malformed_last_is_never_contacted_witness :
    is_due (fun _ => none) 0
        { fullName := "M", frequencyDays := some 7,
          lastContactedAt := .str "not-a-date" } = true
      ∧ overdue_score (fun _ => none) 0
          { fullName := "M", frequencyDays := some 7,
            lastContactedAt := .str "not-a-date" } = 1000000000 :=
  malformed_last_is_never_contacted (fun _ => none) 0 "not-a-date"
    { fullName := "M", frequencyDays := some 7,
      lastContactedAt := .str "not-a-date" } rfl rfl

/-- Claim C10: a stored contact lacking the `frequencyDays` field behaves,
in both `is_due` and `overdue_score`, exactly like the same contact with
the default value 30; neither function fails on the missing field. -/
theorem missing_frequency_defaults_to_thirty (parse : String → Option Int)
    (now : Int) (c : Contact) (hc : c.frequencyDays = none) :
    is_due parse now c
        = is_due parse now { c with frequencyDays := some 30 }
      ∧ overdue_score parse now c
        = overdue_score parse now { c with frequencyDays := some 30 } := by
  cases h : normLast parse c.lastContactedAt with
  | none => constructor <;> simp [is_due, overdue_score, hc, h]
  | some t => constructor <;> simp [is_due, overdue_score, hc, h]

/-- Witness for C10 on a contact with no frequency field. -/
theorem missing_frequency_defaults_to_thirty_witness :
    is_due (fun _ => none) 0
        { fullName := "F", frequencyDays := none, lastContactedAt := .dt 0 }
      = is_due (fun _ => none) 0
        { fullName := "F", frequencyDays := some 30, lastContactedAt := .dt 0 }
      ∧ overdue_score (fun _ => none) 0
          { fullName := "F", frequencyDays := none, lastContactedAt := .dt 0 }
        = overdue_score (fun _ => none) 0
          { fullName := "F", frequencyDays := some 30,
            lastContactedAt := .dt 0 } :=
  missing_frequency_defaults_to_thirty (fun _ => none) 0
    { fullName := "F", frequencyDays := none, lastContactedAt := .dt 0 } rfl

/-- Claim C5: the suggestions output is sorted by `overdue_score`
descending (no element with a strictly lower score precedes one with a
strictly higher score), and on every fiber of equal score the output
elements appear in the same relative order as in the stored contact list
(stable ties), the output being an in-order selection from the stably
sorted list. -/
theorem suggestions_sorted_stable (parse : String → Option Int) (now : Int)
    (contacts : List Contact) (mode : Option String) (count : Option Int) :
    ((get_suggestions parse now contacts mode count).map Prod.fst).Pairwise
        (fun a b => overdue_score parse now b ≤ overdue_score parse now a)
      ∧ ∀ s : Int,
          (((get_suggestions parse now contacts mode count).map Prod.fst).filter
              (fun c => decide (overdue_score parse now c = s))).Sublist
            (contacts.filter
              (fun c => decide (overdue_score parse now c = s))) := by
  have hsub :
      ((get_suggestions parse now contacts mode count).map Prod.fst).Sublist
        (sortDesc (overdue_score parse now) contacts) := by
    rw [get_suggestions_fst]
    refine (pySlice_sublist _ _).trans ?_
    by_cases h : ((sortDesc (overdue_score parse now) contacts).filter
        (is_due parse now)).isEmpty
    · rw [if_pos h]
    · rw [if_neg h]
      exact List.filter_sublist _
  constructor
  · exact List.Pairwise.sublist hsub (pairwise_sortDesc _ _)
  · intro s
    have h := hsub.filter (fun c => decide (overdue_score parse now c = s))
    rwa [filter_sortDesc] at h

/-- Claim C6: when no stored contact is due but at least one exists, the
suggestions endpoint does not return empty (the effective count being at
least one): it falls back to the full score-sorted contact list truncated
to the effective count. -/
theorem fallback_nonempty (parse : String → Option Int) (now : Int)
    (contacts : List Contact) (mode : Option String) (count : Option Int)
    (hnodue : ∀ c ∈ contacts, is_due parse now c = false)
    (hne : contacts ≠ [])
    (hcount : 1 ≤ count.getD 3) :
    get_suggestions parse now contacts mode count ≠ []
      ∧ (get_suggestions parse now contacts mode count).map Prod.fst
        = pySlice (count.getD 3)
            (sortDesc (overdue_score parse now) contacts) := by
  have hdue : (sortDesc (overdue_score parse now) contacts).filter
      (is_due parse now) = [] := by
    rw [List.filter_eq_nil_iff]
    intro a ha
    have hmem : a ∈ contacts := ((sortDesc_perm _ _).mem_iff).1 ha
    simp [hnodue a hmem]
  have hfst : (get_suggestions parse now contacts mode count).map Prod.fst
      = pySlice (count.getD 3)
          (sortDesc (overdue_score parse now) contacts) := by
    rw [get_suggestions_fst, hdue]
    simp
  refine ⟨?_, hfst⟩
  intro hempty
  have hlen :
      ((get_suggestions parse now contacts mode count).map Prod.fst).length
        = 0 := by
    rw [hempty]
    rfl
  rw [hfst, length_pySlice_of_nonneg (by omega)] at hlen
  have hlc : (sortDesc (overdue_score parse now) contacts).length
      = contacts.length := (sortDesc_perm _ _).length_eq
  have hpos : 0 < contacts.length := List.length_pos.2 hne
  omega

/-- A single stored contact that was contacted at the reference instant 0
and is therefore not due at instant 0. -/
def soloFresh : Contact :=
  { fullName := "solo", frequencyDays := some 7, lastContactedAt := .dt 0 }

/-- Witness for C6 with one fresh (not due) contact. -/
theorem fallback_nonempty_witness :
    get_suggestions (fun _ => none) 0 [soloFresh] none none ≠ []
      ∧ (get_suggestions (fun _ => none) 0 [soloFresh] none none).map Prod.fst
        = pySlice 3 (sortDesc (overdue_score (fun _ => none) 0) [soloFresh]) :=
  fallback_nonempty (fun _ => none) 0 [soloFresh] none none
    (by decide) (by decide) (by decide)

/-- Claim C7: for every explicit count `N ≥ 0` the endpoint returns
exactly `min N (size of the result pool)` contacts — the pool being the
due subset when non-empty and the whole contact list otherwise — hence at
most `N`; and with no stored contacts it returns the empty sequence
rather than failing. -/
theorem count_bound_exact (parse : String → Option Int) (now : Int)
    (contacts : List Contact) (mode : Option String) (N : Int) (hN : 0 ≤ N) :
    ((get_suggestions parse now contacts mode (some N)).length
        = min N.toNat
            (if (contacts.filter (is_due parse now)).isEmpty
             then contacts.length
             else (contacts.filter (is_due parse now)).length))
      ∧ (get_suggestions parse now contacts mode (some N)).length ≤ N.toNat
      ∧ get_suggestions parse now [] mode (some N) = [] := by
  have hperm := sortDesc_perm (overdue_score parse now) contacts
  have hfl : ((sortDesc (overdue_score parse now) contacts).filter
        (is_due parse now)).length
      = (contacts.filter (is_due parse now)).length :=
    (hperm.filter (is_due parse now)).length_eq
  have hlen_isEmpty : ∀ (l₁ l₂ : List Contact), l₁.length = l₂.length
      → l₁.isEmpty = l₂.isEmpty := by
    intro l₁ l₂ h
    cases l₁ <;> cases l₂ <;> simp_all
  have hempty_eq : ((sortDesc (overdue_score parse now) contacts).filter
        (is_due parse now)).isEmpty
      = (contacts.filter (is_due parse now)).isEmpty :=
    hlen_isEmpty _ _ hfl
  have hmain : (get_suggestions parse now contacts mode (some N)).length
      = min N.toNat
          (if (contacts.filter (is_due parse now)).isEmpty
           then contacts.length
           else (contacts.filter (is_due parse now)).length) := by
    rw [get_suggestions_eq, List.length_map]
    simp only [Option.getD_some, hempty_eq]
    by_cases h : (contacts.filter (is_due parse now)).isEmpty
    · rw [if_pos h, if_pos h, length_pySlice_of_nonneg hN, hperm.length_eq]
    · rw [if_neg h, if_neg h, length_pySlice_of_nonneg hN, hfl]
  refine ⟨hmain, ?_, ?_⟩
  · rw [hmain]
    exact Nat.min_le_left _ _
  · simp [get_suggestions, sortDesc, pySlice]

/-- Witness for C7 at count 2 over the one-contact store. -/
theorem count_bound_exact_witness :
    ((get_suggestions (fun _ => none) 0 [soloFresh] none (some 2)).length
        = min (2 : Int).toNat
            (if ([soloFresh].filter (is_due (fun _ => none) 0)).isEmpty
             then [soloFresh].length
             else ([soloFresh].filter (is_due (fun _ => none) 0)).length))
      ∧ (get_suggestions (fun _ => none) 0 [soloFresh] none
          (some 2)).length ≤ (2 : Int).toNat
      ∧ get_suggestions (fun _ => none) 0 [] none (some 2) = [] :=
  count_bound_exact (fun _ => none) 0 [soloFresh] none 2 (by decide)

/-- Claim C9: every record in the suggestions output carries a
`daysSince` annotation equal to the whole-day floor of the time elapsed
since its parsed `lastContactedAt`, and `none` when the contact was never
contacted or its timestamp does not parse. -/
theorem suggestions_days_since_field (parse : String → Option Int)
    (now : Int) (contacts : List Contact) (mode : Option String)
    (count : Option Int) :
    ∀ p ∈ get_suggestions parse now contacts mode count,
      (∀ t, normLast parse p.1.lastContactedAt = some t
          → p.2 = some (tdDays (now - t)))
        ∧ (normLast parse p.1.lastContactedAt = none → p.2 = none) := by
  intro p hp
  rw [get_suggestions_eq] at hp
  rcases List.mem_map.1 hp with ⟨c, hc, rfl⟩
  refine ⟨?_, ?_⟩
  · intro t ht
    simp [days_since, ht]
  · intro ht
    simp [days_since, ht]

/-- A never-contacted stored contact. -/
def soloNever : Contact :=
  { fullName := "A", frequencyDays := some 7, lastContactedAt := .absent }

/-- The annotated record the endpoint returns for `soloNever`. -/
def soloNeverOut : Contact × Option Int := (soloNever, none)

/-- Witness for C9 on the one-contact output. -/
theorem suggestions_days_since_field_witness :
    (∀ t, normLast (fun _ => none) soloNeverOut.1.lastContactedAt = some t
        → soloNeverOut.2 = some (tdDays (0 - t)))
      ∧ (normLast (fun _ => none) soloNeverOut.1.lastContactedAt = none
          → soloNeverOut.2 = none) :=
  suggestions_days_since_field (fun _ => none) 0 [soloNever] none none
    soloNeverOut (by decide)

/-- A Settings document in which the user switched to weekly mode,
keeping the default counts (countDaily 3, countWeekly 10). -/
def weeklySettings : Settings :=
  { mode := "weekly", countDaily := 3, countWeekly := 10 }

/-- Five stored contacts, all never contacted, hence all due. -/
def fiveContacts : List Contact :=
  [{ fullName := "a", frequencyDays := some 7, lastContactedAt := .absent },
   { fullName := "b", frequencyDays := some 7, lastContactedAt := .absent },
   { fullName := "c", frequencyDays := some 7, lastContactedAt := .absent },
   { fullName := "d", frequencyDays := some 7, lastContactedAt := .absent },
   { fullName := "e", frequencyDays := some 7, lastContactedAt := .absent }]

/-- Claim C1 fails on the code: the suggestions endpoint never reads the
stored Settings document. With `weeklySettings` stored, both parameters
absent and five due contacts, the resolution the spec prescribes yields
mode weekly and count countWeekly = 10, under which all five contacts
would be returned, but the endpoint substitutes its hardcoded parameter
defaults (mode "daily", count 3) and returns three. -/
theorem suggestions_ignore_settings :
    resolveSpec weeklySettings none none = ("weekly", 10)
      ∧ (get_suggestions (fun _ => none) 0 fiveContacts none none).length = 3
      ∧ (pySlice 10
          (sortDesc (overdue_score (fun _ => none) 0) fiveContacts)).length
        = 5 := by
  decide

/-- A strictly advancing clock: the n-th `now_utc()` call returns the
instant n (real successive clock reads are distinct instants). -/
def tick : Nat → Int := fun n => (n : Int)

/-- Claim C2 fails on the code: `add_interaction` stores the interaction
with `createdAt` from its first `now_utc()` call but updates the contact
with `lastContactedAt` from a second, later `now_utc()` call, so whenever
the clock advances between the two reads the stored values differ. -/
theorem interaction_timestamps_differ :
    ((add_interaction tick "c1"
        { fullName := "Alex", frequencyDays := some 14,
          lastContactedAt := .absent } "call").1.createdAt = 0)
      ∧ ((add_interaction tick "c1"
          { fullName := "Alex", frequencyDays := some 14,
            lastContactedAt := .absent } "call").2.lastContactedAt = .dt 1)
      ∧ (add_interaction tick "c1"
          { fullName := "Alex", frequencyDays := some 14,
            lastContactedAt := .absent } "call").2.lastContactedAt
        ≠ .dt ((add_interaction tick "c1"
            { fullName := "Alex", frequencyDays := some 14,
              lastContactedAt := .absent } "call").1.createdAt) := by
  decide

end Reconnect
